import Mathlib

/-!
# Verification of the bit-player MCMC Ising-model programs

This file gives a shallow embedding of the simulation cores of the
"Three Months in Monte Carlo" programs (metro_v_glauber.js, the combined
visitation/acceptance program, the visitation-sequence program,
boundaries.js, microscope.js) and proves or refutes the frozen claims
about them.

Modelling conventions:
* a JS lattice `lattice[x][y]` is a total function `ℕ → ℕ → ℤ`;
  element assignment is functional update;
* `Math.random()` draws are passed in explicitly, as a real number per
  decision (or, where only the resulting integer matters, as the integer);
* JS floating-point `Math.exp` is modelled on the extended reals: a result
  exceeding `Number.MAX_VALUE` overflows to `⊤` (Infinity); for a positive
  temperature the argument `-deltaE/T` is an ordinary real, so no NaN can
  arise before the clamp;
* fallible code returns `Except`; a thrown JS error is an `error` value.
-/

namespace MCMC

/-- Spin lattices: the JS array-of-arrays `lattice[x][y]`, as an
integer-valued function of the two coordinates. -/
def Lattice : Type := ℕ → ℕ → ℤ

/-- Functional update, the assignment `lattice[x][y] = v`. -/
def setL (L : Lattice) (x y : ℕ) (v : ℤ) : Lattice :=
  fun a b => if a = x ∧ b = y then v else L a b

/-- `calcDeltaE(x, y)` of the toroidal programs (metro_v_glauber.js, the
combined program, the visitation program with `gridSize = 100`, and
microscope.js with `gridSize = 20`): survey the four neighbors with
wraparound index arithmetic and return `2 * lattice[x][y] * (north +
south + east + west)`. The grid side is the parameter `n`. -/
def calcDeltaE (n : ℕ) (L : Lattice) (x y : ℕ) : ℤ :=
  let gridEdge := n - 1
  let north := L x (if 0 < y then y - 1 else gridEdge)
  let south := L x (if y < gridEdge then y + 1 else 0)
  let east := L (if 0 < x then x - 1 else gridEdge) y
  let west := L (if x < gridEdge then x + 1 else 0) y
  2 * L x y * (north + south + east + west)

/-- The exact rational value of IEEE-754 `Number.MAX_VALUE`,
`(2^53 - 1) * 2^971`. -/
def maxValue : ℚ := (2 ^ 53 - 1) * 2 ^ 971

/-- JS `Math.exp` on a real argument: the true exponential, except that a
result beyond `Number.MAX_VALUE` overflows to Infinity (`⊤`). -/
noncomputable def jsExp (x : ℝ) : EReal :=
  if ((maxValue : ℚ) : ℝ) < Real.exp x then ⊤ else ((Real.exp x : ℝ) : EReal)

/-- The expression `Math.min(Math.exp(-deltaE/temperature), Number.MAX_VALUE)`
shared by every acceptance rule in every program. -/
noncomputable def boltzmannJs (deltaE : ℤ) (temperature : ℝ) : EReal :=
  min (jsExp (-(deltaE : ℝ) / temperature)) (((maxValue : ℚ) : ℝ) : EReal)

/-- The (always finite) real value stored in the JS variable `boltzmann`
after the clamp. -/
noncomputable def boltzmannVal (deltaE : ℤ) (temperature : ℝ) : ℝ :=
  (boltzmannJs deltaE temperature).toReal

/-- `coinFlip()`: `Math.random() < 0.5`, with the draw passed explicitly. -/
noncomputable def coinFlip (c : ℝ) : Bool :=
  decide (c < (0.5 : ℝ))

/-- The M-rule: flip if `deltaE <= 0`; otherwise flip iff
`Math.random() < boltzmann`. `u` is the RNG draw. -/
noncomputable def MRule (deltaE : ℤ) (temperature u : ℝ) : Bool :=
  let boltzmann := boltzmannVal deltaE temperature
  if deltaE ≤ 0 then true
  else if u < boltzmann then true
  else false

/-- The G-rule: flip iff `Math.random() < boltzmann / (1 + boltzmann)`. -/
noncomputable def GRule (deltaE : ℤ) (temperature u : ℝ) : Bool :=
  let boltzmann := boltzmannVal deltaE temperature
  if u < boltzmann / (1 + boltzmann) then true else false

/-- The M*-rule: flip if `deltaE < 0`; decide `deltaE = 0` by `coinFlip()`
(draw `c`); otherwise flip iff `Math.random() < boltzmann`. -/
noncomputable def MstarRule (deltaE : ℤ) (temperature u c : ℝ) : Bool :=
  let boltzmann := boltzmannVal deltaE temperature
  if deltaE < 0 then true
  else if deltaE = 0 then coinFlip c
  else if u < boltzmann then true
  else false

/-- microscope.js `MRuleFn(x, y)`: the M-rule applied to the current
lattice at `(x, y)` on the 20 × 20 toroidal grid. -/
noncomputable def MRuleFn (L : Lattice) (x y : ℕ) (temperature u : ℝ) : Bool :=
  MRule (calcDeltaE 20 L x y) temperature u

/-- microscope.js `MstarRuleFn(x, y)` on the 20 × 20 toroidal grid. -/
noncomputable def MstarRuleFn (L : Lattice) (x y : ℕ) (temperature u c : ℝ) : Bool :=
  MstarRule (calcDeltaE 20 L x y) temperature u c

namespace Boundaries

/-! Constants of boundaries.js: a 102 × 102 grid whose outer ring is the
halo border and whose interior (active) region is `1 ≤ x, y ≤ 100`. -/

def gridSize : ℕ := 102
def gridTop : ℕ := 0
def gridLeft : ℕ := 0
def gridBottom : ℕ := 101
def gridRight : ℕ := 101
def activeSize : ℕ := 100
def activeTop : ℕ := 1
def activeLeft : ℕ := 1
def activeBottom : ℕ := 100
def activeRight : ℕ := 100

/-- Membership in the halo ring (border cells and corners). -/
def isBorder (x y : ℕ) : Bool :=
  x = gridLeft || x = gridRight || y = gridTop || y = gridBottom

/-- The lattice produced by `init()` in boundaries.js when
`boundaryRule = 'zero'`: interior cells are set from coin flips, then
`makeZeroBorder` writes 0 into every border cell and `makeZeroCorners`
writes 0 into the four corners. `coins` is the stream of `coinFlip()`
results, indexed by cell. -/
def initZero (coins : ℕ → ℕ → Bool) : Lattice :=
  fun x y => if isBorder x y then 0 else if coins x y then 1 else -1

/-- boundaries.js `calcDeltaE(x, y)`: direct neighbor indexing with no
wraparound (defined for interior coordinates; the halo supplies the
missing neighbors). -/
def calcDeltaE (L : Lattice) (x y : ℕ) : ℤ :=
  2 * L x y * (L x (y - 1) + L x (y + 1) + L (x + 1) y + L (x - 1) y)

/-- boundaries.js `updateBorderMicrostep(x, y)`: after a committed flip
at `(x, y)`, copy the new value into at most one border cell, selected by
the `if/else if` chain (left edge, then right edge, then top, then
bottom). -/
def updateBorderMicrostep (boundaryRule : String) (L : Lattice) (x y : ℕ) : Lattice :=
  if boundaryRule = "wraparound" then
    if x = activeLeft then setL L gridRight y (L x y)
    else if x = activeRight then setL L gridLeft y (L x y)
    else if y = activeTop then setL L x gridBottom (L x y)
    else if y = activeBottom then setL L x gridTop (L x y)
    else L
  else if boundaryRule = "twisted" then
    if x = activeLeft then setL L gridRight (gridBottom - y) (L x y)
    else if x = activeRight then setL L gridLeft (gridBottom - y) (L x y)
    else if y = activeTop then setL L x gridBottom (L x y)
    else if y = activeBottom then setL L x gridTop (L x y)
    else L
  else L

/-- A committed flip inside `runMetro`/`runGlauber` of boundaries.js:
`lattice[x][y] *= -1` immediately followed by
`updateBorderMicrostep(x, y)`. The returned lattice is exactly the state
the next microstep reads. -/
def commitFlip (boundaryRule : String) (L : Lattice) (x y : ℕ) : Lattice :=
  updateBorderMicrostep boundaryRule (setL L x y (-(L x y))) x y

/-- The halo cells that mirror the interior cell `(x, y)` under the
wraparound rule, read off from the assignments of
`makeWraparoundBorder`: the top border row copies the interior bottom
row, the right border column copies the interior left column, the bottom
border row copies the interior top row, and the left border column
copies the interior right column. -/
def mirrorCells (x y : ℕ) : List (ℕ × ℕ) :=
  (if y = activeBottom then [(x, gridTop)] else []) ++
    (if x = activeLeft then [(gridRight, y)] else []) ++
      (if y = activeTop then [(x, gridBottom)] else []) ++
        (if x = activeRight then [(gridLeft, y)] else [])

/-- The string selecting the wraparound boundary rule. -/
def wraparoundRule : String := "wraparound"

/-- An all-up lattice; it is wraparound-consistent (every halo cell
equals its mirrored interior cell). -/
def onesLattice : Lattice := fun _ _ => 1

end Boundaries

/-! ## Visitation sequences

Each generator is embedded as the finite list of coordinates it yields
during one sweep, in emission order. The grid side is a parameter `n`
(20 in microscope.js, 100 in the visitation program). -/

/-- microscope.js `typewriterGen`: row-major, `y` outer, `x` inner,
yielding `{x, y}`. -/
def typewriterGen (n : ℕ) : List (ℕ × ℕ) :=
  (List.range n).flatMap fun y => (List.range n).map fun x => (x, y)

/-- The inner loop `for (x = s; x < n; x += 2)`: the values
`s, s + 2, ...` below `n`. -/
def stride2 (s n : ℕ) : List ℕ :=
  List.range' s ((n - s + 1) / 2) 2

/-- microscope.js `checkerboardGen`: one parity class in row-major order
(starting column `y % 2`), then the complementary class. -/
def checkerboardGen (n : ℕ) : List (ℕ × ℕ) :=
  ((List.range n).flatMap fun y => (stride2 (y % 2) n).map fun x => (x, y)) ++
    (List.range n).flatMap fun y => (stride2 ((y + 1) % 2) n).map fun x => (x, y)

/-- The loop body of `diagonalGen`: yields `(x, y)` then moves along
anti-diagonals; `count` runs to `N = n * n`, embedded as fuel. -/
def diagonalGenAux (n : ℕ) : ℕ → ℕ → ℕ → List (ℕ × ℕ)
  | 0, _, _ => []
  | f + 1, x, y =>
    (x, y) ::
      (if x = n - 1 then diagonalGenAux n f (y + 1) (n - 1)
       else if y = 0 then diagonalGenAux n f 0 (x + 1)
       else diagonalGenAux n f (x + 1) (y - 1))

/-- microscope.js `diagonalGen` (identical to `diagonalCoords` of the
visitation program): `N = n * n` yields starting from `(0, 0)`. -/
def diagonalGen (n : ℕ) : List (ℕ × ℕ) :=
  diagonalGenAux n (n * n) 0 0

/-- The anti-diagonal `x + y = d` of an `n` × `n` grid, traversed with
`x` increasing. -/
def diagSegment (n d : ℕ) : List (ℕ × ℕ) :=
  (List.range' (d - (n - 1)) (min d (n - 1) - (d - (n - 1)) + 1)).map fun x => (x, d - x)

/-- The Cantor-style enumeration in closed form: the `2n - 1`
anti-diagonals in order, used to characterize `diagonalGen`. -/
def diagCanon (n : ℕ) : List (ℕ × ℕ) :=
  (List.range (2 * n - 1)).flatMap (diagSegment n)

/-- The `while (y < gridSize)` loop of `boustrophedonCoords`: yield
`(x, y)`, then move right on even rows and left on odd rows, dropping to
the next row at the ends. One yield per iteration; `n * n` iterations
exhaust the loop, embedded as fuel. -/
def boustrophedonAux (n : ℕ) : ℕ → ℕ → ℕ → List (ℕ × ℕ)
  | 0, _, _ => []
  | f + 1, x, y =>
    if y < n then
      (x, y) ::
        (if y % 2 = 0 then
          (if x < n - 1 then boustrophedonAux n f (x + 1) y
           else boustrophedonAux n f x (y + 1))
         else
          (if 0 < x then boustrophedonAux n f (x - 1) y
           else boustrophedonAux n f x (y + 1)))
    else []

/-- The visitation program's `boustrophedonCoords` generator
(`gridSize = 100` there), from the initial state `(0, 0)`. -/
def boustrophedonCoords (n : ℕ) : List (ℕ × ℕ) :=
  boustrophedonAux n (n * n) 0 0

/-- One serpentine row in closed form: row `y` is traversed
left-to-right when `y` is even and right-to-left when `y` is odd. -/
def bousRow (n y : ℕ) : List (ℕ × ℕ) :=
  (if y % 2 = 0 then List.range n else (List.range n).reverse).map fun x => (x, y)

/-- The serpentine sweep in closed form, used to characterize
`boustrophedonCoords`. -/
def bousCanon (n : ℕ) : List (ℕ × ℕ) :=
  (List.range n).flatMap (bousRow n)

/-- The column at which the serpentine traversal enters row `y`. -/
def bousStartX (n y : ℕ) : ℕ :=
  if y % 2 = 0 then 0 else n - 1

/-- A JS integer array modelled as a function of the index; the swap
`temp = p[j]; p[j] = p[i]; p[i] = temp` from `randomPermutation`. -/
def swapFn (p : ℕ → ℕ) (i j : ℕ) : ℕ → ℕ :=
  fun k => if k = j then p i else if k = i then p j else p k

/-- The index transposition through which `swapFn` factors:
`swapFn p i j = p ∘ transposeFn i j`. -/
def transposeFn (i j : ℕ) : ℕ → ℕ :=
  fun k => if k = j then i else if k = i then j else k

/-- `p` permutes `{0, ..., n-1}`: it maps that range into itself
injectively. -/
def GoodOn (p : ℕ → ℕ) (n : ℕ) : Prop :=
  (∀ k < n, p k < n) ∧ ∀ a < n, ∀ b < n, p a = p b → a = b

/-- `randomPermutation(n)`: start from the identity array `[0 .. n-1]`
and, for `i = n-1` down to `2`, swap `p[i]` with `p[j]` where
`j = Math.floor(Math.random() * n)` is the draw `js i`. -/
def randomPermutation (n : ℕ) (js : ℕ → ℕ) : ℕ → ℕ :=
  (List.range' 2 (n - 2)).reverse.foldl (fun p i => swapFn p i (js i)) id

/-- The permutation array read in order: `[p[0], ..., p[n-1]]`. -/
def permArray (n : ℕ) (js : ℕ → ℕ) : List ℕ :=
  (List.range n).map (randomPermutation n js)

/-- microscope.js `permutedGen`: `for (r of thePermutation)` yield
`(r / gridSize, r % gridSize)` with `gridSize = 20`. -/
def permutedGen (thePermutation : List ℕ) : List (ℕ × ℕ) :=
  thePermutation.map fun r => (r / 20, r % 20)

/-- microscope.js `re_permutedGen`: a fresh `randomPermutation(N)`
(`N = 400`), then the same coordinate mapping as `permutedGen`. -/
def re_permutedGen (js : ℕ → ℕ) : List (ℕ × ℕ) :=
  permutedGen (permArray 400 js)

/-- microscope.js `randomGen`: `N = n * n` independent coordinate draws
with replacement; `xs i` and `ys i` are the values
`Math.floor(Math.random() * gridSize)` of the `i`-th pair. -/
def randomGen (n : ℕ) (xs ys : ℕ → ℕ) : List (ℕ × ℕ) :=
  (List.range (n * n)).map fun i => (xs i, ys i)

/-! ## The simultaneous (synchronous) sweep of the visitation program -/

/-- One iteration of the decision loop of `runMetro_simultaneous`
(`gridSize = 100`): copy `lattice[x][y]` into the shadow lattice, compute
`deltaE` from `lattice`, and on acceptance negate the shadow cell. The
state is the pair `(shadowLattice, lattice)`; the lattice component is
returned unchanged — the loop never writes to `lattice`. -/
noncomputable def simMicrostep (temperature : ℝ) (u : ℕ → ℕ → ℝ)
    (st : Lattice × Lattice) (xy : ℕ × ℕ) : Lattice × Lattice :=
  let shadow := setL st.1 xy.1 xy.2 (st.2 xy.1 xy.2)
  let deltaE := calcDeltaE 100 st.2 xy.1 xy.2
  if MRule deltaE temperature (u xy.1 xy.2) then
    (setL shadow xy.1 xy.2 (-(st.2 xy.1 xy.2)), st.2)
  else (shadow, st.2)

/-- The coordinate order of both loops of `runMetro_simultaneous`:
`x` outer, `y` inner. -/
def sweepOrderXMajor (n : ℕ) : List (ℕ × ℕ) :=
  (List.range n).flatMap fun x => (List.range n).map fun y => (x, y)

/-- `runMetro_simultaneous`: run the decision loop over all `100 * 100`
coordinates starting from shadow `S` and lattice `L`, then copy the
shadow back into the lattice cell by cell (`0 ≤ x, y < 100`). The result
is the lattice after the sweep. -/
noncomputable def runMetro_simultaneous (L S : Lattice) (temperature : ℝ)
    (u : ℕ → ℕ → ℝ) : Lattice :=
  let st := (sweepOrderXMajor 100).foldl (simMicrostep temperature u) (S, L)
  fun a b => if a < 100 ∧ b < 100 then st.1 a b else st.2 a b

/-! ## metro_v_glauber.js: init, statistics, temperatureStep -/

namespace MetroGlauber

/-- What a call to `init(pattern)` leaves behind: the lattice, the
console messages emitted, and whether the trailing `drawLattice()`
executed. -/
structure InitResult where
  lattice : Lattice
  consoleLog : List String
  drew : Bool

/-- metro_v_glauber.js `init(pattern)` (`gridSize = 100`): fill the
lattice according to the pattern; an unknown pattern falls to the
`default` case, which only logs `Unknown initState ...` — the function
then proceeds to `drawLattice()` like every other case. `coins` is the
`coinFlip()` stream for the scrambled pattern. -/
def init (pattern : String) (coins : ℕ → ℕ → Bool) (L : Lattice) : InitResult :=
  if pattern = "scrambled" then
    ⟨fun x y => if x < 100 ∧ y < 100 then (if coins x y then 1 else -1) else L x y,
      [], true⟩
  else if pattern = "plus" then
    ⟨fun x y => if x < 100 ∧ y < 100 then 1 else L x y, [], true⟩
  else if pattern = "minus" then
    ⟨fun x y => if x < 100 ∧ y < 100 then -1 else L x y, [], true⟩
  else ⟨L, ["Unknown initState " ++ pattern], true⟩

/-- `magnetization()`: the sum of the `n * n` spin values divided by
`N = n * n`. -/
def magnetization (n : ℕ) (L : Lattice) : ℚ :=
  ((∑ x ∈ Finset.range n, ∑ y ∈ Finset.range n, L x y : ℤ) : ℚ) / ((n * n : ℕ) : ℚ)

/-- The per-sweep magnetization series reported by
`equilibriumProperties`: the inner loop accumulates
`Ms[j] += Math.abs(magnetization())` over `reps` repetitions and the
result list is `Ms.map(x => x / reps)`. The lattice seen at repetition
`i` after recorded sweep `j` is abstracted as `lat i j`. -/
def equilibriumMResults (lat : ℕ → ℕ → Lattice) (steps reps : ℕ) : List ℚ :=
  (List.range steps).map fun j =>
    (∑ i ∈ Finset.range reps, |magnetization 100 (lat i j)|) / (reps : ℚ)

/-- `square` from metro_v_glauber.js. -/
def square (x : ℚ) : ℚ := x * x

/-- JS division with the non-finite outcomes collapsed to `none`: a zero
divisor yields NaN (here, since the numerator is also zero in the case
of interest) instead of a rational value. -/
def jsDiv (a b : ℚ) : Option ℚ :=
  if b = 0 then none else some (a / b)

/-- The radicand of the standard-deviation computation in
`equilibriumProperties` (lines computing `M_sdev`/`R_sdev`): mean with
divisor `steps`, squared deviates, and their sum divided by `steps - 1`
with no guard. `results` is the per-sweep series (its length is `steps`
in every call site). -/
def sdevRadicand (results : List ℚ) (steps : ℕ) : Option ℚ :=
  let mean := results.sum / (steps : ℚ)
  let deviates := results.map fun x => square (x - mean)
  jsDiv deviates.sum ((steps : ℚ) - 1)

/-- JS runtime errors thrown by the console-only routines. -/
inductive JsError
  | referenceError (name : String)
  | typeError
deriving DecidableEq

/-- `decimate_array(arr, glom_size)`: consecutive blocks of `glom`
elements averaged. When `arr.length` is not a multiple of `glom`, the
final block reads past the end of the array and its average is NaN
(modelled as `none`). Faithful to the source for `glom ≥ 1` (with
`glom = 0` the source loop never terminates). -/
def decimate_array (arr : List ℚ) (glom : ℕ) : List (Option ℚ) :=
  (List.range ((arr.length + glom - 1) / glom)).map fun b =>
    if (b + 1) * glom ≤ arr.length then
      some ((((List.range glom).map fun i => arr.getD (b * glom + i) 0).sum) / (glom : ℚ))
    else none

/-- `toFixed(4)` on a possibly-NaN value: total; NaN prints as "NaN". -/
def toFixed4 (v : Option ℚ) : String :=
  match v with
  | none => "NaN"
  | some q => toString q

/-- The JS identifier names appearing in the broken assignments
`outputDiv.innerHTML = R-str` and `= M-str` of `temperatureStep`. -/
def identR : String := "R"

/-- See `identR`. -/
def identM : String := "M"

/-- The output-writing block of `temperatureStep` for one decimated list
(lines 545-550 for R, 552-557 for M): build the bracketed list string
element by element, appending `short[short.length - 1].toFixed(4)` last —
on an empty list that indexes `undefined` and `.toFixed` throws a
TypeError. The subsequent assignment `outputDiv.innerHTML = R-str`
(resp. `M-str`) evaluates the subtraction of two identifiers; the first,
`missingName` (`R` resp. `M`), is not declared in any enclosing scope, so
the lookup throws a ReferenceError. -/
def writeShortList (tag missingName : String) (short : List (Option ℚ)) :
    Except JsError String :=
  match short.getLast? with
  | none => .error .typeError
  | some lastV =>
    let body := String.join ((short.dropLast).map fun v => toFixed4 v ++ ", ")
    let _full := "<p>" ++ tag ++ " = [" ++ body ++ toFixed4 lastV ++ "]</p>"
    .error (.referenceError missingName)

/-- metro_v_glauber.js `temperatureStep`: the simulation loops accumulate
per-sweep sums `Rs`/`Ms` over `T1_steps + T2_steps` recorded sweeps
(their values, irrelevant to the outcome, are abstracted as
`measurements`); the sums are divided by `reps`, decimated with `glom`,
and written out — where the `R` write is reached first. -/
def temperatureStep (measurements : ℕ → ℚ × ℚ) (T1_steps T2_steps glom reps : ℕ) :
    Except JsError Unit := do
  let len := T1_steps + T2_steps
  let Rs := (List.range len).map fun j => (measurements j).1
  let Ms := (List.range len).map fun j => (measurements j).2
  let R_results := Rs.map fun x => x / (reps : ℚ)
  let M_results := Ms.map fun x => x / (reps : ℚ)
  let R_short := decimate_array R_results glom
  let M_short := decimate_array M_results glom
  let _ ← writeShortList identR identR R_short
  let _ ← writeShortList identM identM M_short
  pure ()

end MetroGlauber

/-- The per-sweep magnetization series of `stepResponse` (the visitation
program and boundaries.js): `Hs[j] += Math.abs(magnetization())` per
repetition, reduced by `x / reps`. -/
def stepResponseHResults (lat : ℕ → ℕ → Lattice) (T1_steps T2_steps reps : ℕ) :
    List ℚ :=
  (List.range (T1_steps + T2_steps)).map fun j =>
    (∑ i ∈ Finset.range reps, |MetroGlauber.magnetization 100 (lat i j)|) / (reps : ℚ)

/-- An all-down lattice (every spin `-1`), whose signed magnetization is
`-1`. -/
def downLattice : Lattice := fun _ _ => -1

namespace Combined

/-- The combined program's `updateSpin(x, y)` (`gridSize = 100`,
toroidal): dispatch on the string `acceptanceFn`; a string matching none
of `M_rule`, `G_rule`, `M_star_rule` takes no branch and the function
returns with the lattice untouched and nothing logged or thrown. -/
noncomputable def updateSpin (acceptanceFn : String) (L : Lattice) (x y : ℕ)
    (temperature u c : ℝ) : Lattice :=
  let deltaE := calcDeltaE 100 L x y
  if acceptanceFn = "M_rule" then
    (if MRule deltaE temperature u then setL L x y (-(L x y)) else L)
  else if acceptanceFn = "G_rule" then
    (if GRule deltaE temperature u then setL L x y (-(L x y)) else L)
  else if acceptanceFn = "M_star_rule" then
    (if MstarRule deltaE temperature u c then setL L x y (-(L x y)) else L)
  else L

end Combined

/-- An unknown mode-selector string used in the refutations. -/
def bogusSelector : String := "frobnicate"

/-! ## Helper lemmas -/

/-- A list of `n * n` coordinate pairs that contains every pair of the
`n × n` grid has no duplicates. -/
theorem nodup_of_cover {l : List (ℕ × ℕ)} {n : ℕ} (hlen : l.length = n * n)
    (hmem : ∀ x < n, ∀ y < n, (x, y) ∈ l) : l.Nodup := by
  have hsub : (Finset.range n) ×ˢ (Finset.range n) ⊆ l.toFinset := by
    intro p hp
    rcases p with ⟨x, y⟩
    rw [Finset.mem_product, Finset.mem_range, Finset.mem_range] at hp
    exact List.mem_toFinset.2 (hmem x hp.1 y hp.2)
  have hcard : n * n ≤ l.toFinset.card := by
    have := Finset.card_le_card hsub
    simpa [Finset.card_product] using this
  have h1 : l.toFinset.card = l.dedup.length := List.card_toFinset l
  have h2 : l.dedup.length ≤ l.length := (List.dedup_sublist l).length_le
  have hd : l.dedup.length = l.length := by omega
  have : l.dedup = l := (List.dedup_sublist l).eq_of_length hd
  rw [← this]
  exact List.nodup_dedup l

/-- Coercion of a real `min` into `EReal`. -/
theorem coe_min_eq (a b : ℝ) :
    ((min a b : ℝ) : EReal) = min ((a : ℝ) : EReal) ((b : ℝ) : EReal) := by
  rcases le_total a b with h | h
  · rw [min_eq_left h, min_eq_left (EReal.coe_le_coe_iff.2 h)]
  · rw [min_eq_right h, min_eq_right (EReal.coe_le_coe_iff.2 h)]

/-- `Number.MAX_VALUE` is positive. -/
theorem maxValue_pos : (0 : ℝ) < ((maxValue : ℚ) : ℝ) := by
  have h : (0 : ℚ) < maxValue := by
    unfold maxValue
    positivity
  exact_mod_cast h

/-! ## C6: the clamped Boltzmann weight -/

/-- C6: for every deltaE and every positive temperature, the value
`Math.min(Math.exp(-deltaE/temperature), Number.MAX_VALUE)` computed by
every acceptance rule equals the minimum of the true exponential and the
largest finite double; it is never Infinity, never NaN (the model takes
values in `EReal`, where `⊤`/`⊥` are the infinities, and a positive
temperature keeps the exponent an ordinary real), and the stored weight
`boltzmannVal` — the value the RNG draw is compared against in `MRule`,
`GRule` and `MstarRule` — is a strictly positive real bounded by
`Number.MAX_VALUE`. -/
theorem boltzmann_clamped (deltaE : ℤ) (temperature : ℝ)
    (hT : 0 < temperature) :
    boltzmannJs deltaE temperature =
        ((min (Real.exp (-(deltaE : ℝ) / temperature)) ((maxValue : ℚ) : ℝ) : ℝ) : EReal) ∧
      boltzmannJs deltaE temperature ≠ ⊤ ∧
      boltzmannJs deltaE temperature ≠ ⊥ ∧
      boltzmannVal deltaE temperature =
        min (Real.exp (-(deltaE : ℝ) / temperature)) ((maxValue : ℚ) : ℝ) ∧
      0 < boltzmannVal deltaE temperature ∧
      boltzmannVal deltaE temperature ≤ ((maxValue : ℚ) : ℝ) := by
  have hmain : boltzmannJs deltaE temperature =
      ((min (Real.exp (-(deltaE : ℝ) / temperature)) ((maxValue : ℚ) : ℝ) : ℝ) : EReal) := by
    unfold boltzmannJs jsExp
    by_cases hover : ((maxValue : ℚ) : ℝ) < Real.exp (-(deltaE : ℝ) / temperature)
    · rw [if_pos hover, min_eq_right (le_top : (_ : EReal) ≤ ⊤),
        min_eq_right hover.le]
    · rw [if_neg hover, coe_min_eq]
  have hval : boltzmannVal deltaE temperature =
      min (Real.exp (-(deltaE : ℝ) / temperature)) ((maxValue : ℚ) : ℝ) := by
    unfold boltzmannVal
    rw [hmain]
    exact EReal.toReal_coe _
  refine ⟨hmain, ?_, ?_, hval, ?_, ?_⟩
  · rw [hmain]; exact EReal.coe_ne_top _
  · rw [hmain]; exact EReal.coe_ne_bot _
  · rw [hval]
    exact lt_min (Real.exp_pos _) maxValue_pos
  · rw [hval]
    exact min_le_right _ _

/-- Witness for C6 at `deltaE = -8`, `temperature = 1/100`. -/
theorem boltzmann_clamped_witness :
    (0 : ℝ) < 1 / 100 ∧
      boltzmannVal (-8) (1 / 100) =
        min (Real.exp (-((-8 : ℤ) : ℝ) / (1 / 100))) ((maxValue : ℚ) : ℝ) :=
  ⟨by norm_num, (boltzmann_clamped (-8) (1 / 100) (by norm_num)).2.2.2.1⟩

/-! ## C1: the M-rule and M*-rule acceptance functions -/

/-- C1: for every lattice site, every positive temperature and every RNG
draw, `MRuleFn` flips whenever `deltaE(x, y) ≤ 0` and otherwise flips iff
the draw is strictly below the clamped Boltzmann weight; `MstarRuleFn`
flips whenever `deltaE(x, y) < 0`, decides `deltaE = 0` by the unbiased
coin flip `c < 0.5`, and for `deltaE > 0` coincides with `MRuleFn`. -/
theorem acceptance_rules_spec (L : Lattice) (x y : ℕ) (temperature u c : ℝ)
    (hT : 0 < temperature) :
    (calcDeltaE 20 L x y ≤ 0 → MRuleFn L x y temperature u = true) ∧
      (0 < calcDeltaE 20 L x y →
        (MRuleFn L x y temperature u = true ↔
          u < boltzmannVal (calcDeltaE 20 L x y) temperature)) ∧
      (calcDeltaE 20 L x y < 0 → MstarRuleFn L x y temperature u c = true) ∧
      (calcDeltaE 20 L x y = 0 →
        (MstarRuleFn L x y temperature u c = true ↔ c < (0.5 : ℝ))) ∧
      (0 < calcDeltaE 20 L x y →
        MstarRuleFn L x y temperature u c = MRuleFn L x y temperature u) := by
  refine ⟨?_, ?_, ?_, ?_, ?_⟩
  · intro h
    simp [MRuleFn, MRule, h]
  · intro h
    have h3 : ¬calcDeltaE 20 L x y ≤ 0 := not_le.2 h
    rw [MRuleFn, MRule]
    simp only [if_neg h3]
    by_cases hu : u < boltzmannVal (calcDeltaE 20 L x y) temperature
    · simp [hu]
    · simp [hu]
  · intro h
    simp [MstarRuleFn, MstarRule, h]
  · intro h
    have h1 : ¬calcDeltaE 20 L x y < 0 := by omega
    rw [MstarRuleFn, MstarRule]
    simp only [if_neg h1, if_pos h, coinFlip]
    simp
  · intro h
    have h1 : ¬calcDeltaE 20 L x y < 0 := by omega
    have h2 : calcDeltaE 20 L x y ≠ 0 := by omega
    have h3 : ¬calcDeltaE 20 L x y ≤ 0 := by omega
    rw [MstarRuleFn, MstarRule, MRuleFn, MRule]
    simp only [if_neg h1, if_neg h2, if_neg h3]

/-- Witness for C1 on the all-down lattice at (0, 0) (`deltaE = 8`),
`temperature = 1`, draw `u = 2`, coin draw `c = 0`. -/
theorem acceptance_rules_spec_witness :
    (0 : ℝ) < 1 ∧
      (MRuleFn downLattice 0 0 1 2 = true ↔
        (2 : ℝ) < boltzmannVal (calcDeltaE 20 downLattice 0 0) 1) :=
  ⟨by norm_num, (acceptance_rules_spec downLattice 0 0 1 2 0 (by norm_num)).2.1 (by decide)⟩

/-! ## C5: the value set of deltaE -/

/-- C5 counterexample: in boundaries.js under the zero boundary rule (a
reachable state: `init()` right after the zero rule is selected), the
all-up interior gives `deltaE = 6` at the interior edge cell (2, 1) —
outside {-8, -4, 0, 4, 8} — because that cell's north neighbor is a
zero-valued halo cell. -/
theorem deltaE_zero_border_counterexample :
    Boundaries.calcDeltaE (Boundaries.initZero fun _ _ => true) 2 1 = 6 ∧
      ¬((6 : ℤ) = -8 ∨ (6 : ℤ) = -4 ∨ (6 : ℤ) = 0 ∨ (6 : ℤ) = 4 ∨ (6 : ℤ) = 8) := by
  decide

/-- C5 amended: `deltaE(x, y)` always equals
`2 · spin(x, y) · (north + south + east + west)` and is always even; with
spins ±1 and neighbors in {-1, 0, 1} (halo cells may hold 0) its
magnitude is at most 8; whenever all four neighbors hold ±1 it lies in
{-8, -4, 0, 4, 8}; on a toroidal lattice of any side whose cells all
hold ±1, it always lies in {-8, -4, 0, 4, 8}. -/
theorem deltaE_values :
    (∀ (L : Lattice) (x y : ℕ),
        (L x y = 1 ∨ L x y = -1) →
        (L x (y - 1) = 1 ∨ L x (y - 1) = 0 ∨ L x (y - 1) = -1) →
        (L x (y + 1) = 1 ∨ L x (y + 1) = 0 ∨ L x (y + 1) = -1) →
        (L (x + 1) y = 1 ∨ L (x + 1) y = 0 ∨ L (x + 1) y = -1) →
        (L (x - 1) y = 1 ∨ L (x - 1) y = 0 ∨ L (x - 1) y = -1) →
        Boundaries.calcDeltaE L x y =
            2 * L x y * (L x (y - 1) + L x (y + 1) + L (x + 1) y + L (x - 1) y) ∧
          Even (Boundaries.calcDeltaE L x y) ∧
          -8 ≤ Boundaries.calcDeltaE L x y ∧ Boundaries.calcDeltaE L x y ≤ 8) ∧
      (∀ (L : Lattice) (x y : ℕ),
        (L x y = 1 ∨ L x y = -1) →
        (L x (y - 1) = 1 ∨ L x (y - 1) = -1) →
        (L x (y + 1) = 1 ∨ L x (y + 1) = -1) →
        (L (x + 1) y = 1 ∨ L (x + 1) y = -1) →
        (L (x - 1) y = 1 ∨ L (x - 1) y = -1) →
        (Boundaries.calcDeltaE L x y = -8 ∨ Boundaries.calcDeltaE L x y = -4 ∨
          Boundaries.calcDeltaE L x y = 0 ∨ Boundaries.calcDeltaE L x y = 4 ∨
          Boundaries.calcDeltaE L x y = 8)) ∧
      (∀ (n : ℕ) (L : Lattice) (x y : ℕ),
        (∀ a b, L a b = 1 ∨ L a b = -1) →
        (calcDeltaE n L x y = -8 ∨ calcDeltaE n L x y = -4 ∨
          calcDeltaE n L x y = 0 ∨ calcDeltaE n L x y = 4 ∨
          calcDeltaE n L x y = 8)) := by
  refine ⟨?_, ?_, ?_⟩
  · intro L x y hs h1 h2 h3 h4
    refine ⟨rfl, ⟨L x y * (L x (y - 1) + L x (y + 1) + L (x + 1) y + L (x - 1) y), by
      show Boundaries.calcDeltaE L x y = _
      unfold Boundaries.calcDeltaE
      ring⟩, ?_⟩
    show -8 ≤ 2 * L x y * (L x (y - 1) + L x (y + 1) + L (x + 1) y + L (x - 1) y) ∧
      2 * L x y * (L x (y - 1) + L x (y + 1) + L (x + 1) y + L (x - 1) y) ≤ 8
    rcases hs with h | h <;> rcases h1 with h1 | h1 | h1 <;> rcases h2 with h2 | h2 | h2 <;>
      rcases h3 with h3 | h3 | h3 <;> rcases h4 with h4 | h4 | h4 <;>
      rw [h, h1, h2, h3, h4] <;> decide
  · intro L x y hs h1 h2 h3 h4
    simp only [Boundaries.calcDeltaE]
    rcases hs with h | h <;> rcases h1 with h1 | h1 <;> rcases h2 with h2 | h2 <;>
      rcases h3 with h3 | h3 <;> rcases h4 with h4 | h4 <;>
      rw [h, h1, h2, h3, h4] <;> decide
  · intro n L x y h
    simp only [calcDeltaE]
    rcases h x y with h0 | h0 <;>
      rcases h x (if 0 < y then y - 1 else n - 1) with h1 | h1 <;>
      rcases h x (if y < n - 1 then y + 1 else 0) with h2 | h2 <;>
      rcases h (if 0 < x then x - 1 else n - 1) y with h3 | h3 <;>
      rcases h (if x < n - 1 then x + 1 else 0) y with h4 | h4 <;>
      rw [h0, h1, h2, h3, h4] <;> decide

/-- Witness for C5 (amended) on the all-up 102 × 102 lattice whose halo
was built by the zero rule, at interior cell (2, 1) and, for the toroidal
clause, on the all-down lattice. -/
theorem deltaE_values_witness :
    (Even (Boundaries.calcDeltaE (Boundaries.initZero fun _ _ => true) 2 1) ∧
        -8 ≤ Boundaries.calcDeltaE (Boundaries.initZero fun _ _ => true) 2 1 ∧
        Boundaries.calcDeltaE (Boundaries.initZero fun _ _ => true) 2 1 ≤ 8) ∧
      (calcDeltaE 20 downLattice 0 0 = -8 ∨ calcDeltaE 20 downLattice 0 0 = -4 ∨
        calcDeltaE 20 downLattice 0 0 = 0 ∨ calcDeltaE 20 downLattice 0 0 = 4 ∨
        calcDeltaE 20 downLattice 0 0 = 8) := by
  constructor
  · have h := (deltaE_values.1 (Boundaries.initZero fun _ _ => true) 2 1
      (by decide) (by decide) (by decide) (by decide) (by decide))
    exact ⟨h.2.1, h.2.2⟩
  · exact deltaE_values.2.2 20 downLattice 0 0 (fun a b => Or.inr rfl)

/-! ## C2: wraparound halo maintenance after a committed flip -/

/-- C2 counterexample: starting from the wraparound-consistent all-up
lattice, the committed flip at the interior corner cell (1, 1) leaves the
bottom-row mirror halo cell (1, 101) stale: `(1, 101)` mirrors `(1, 1)`
under wraparound, yet after the flip the interior cell holds -1 while the
halo cell still holds +1 — the `else if` chain in
`updateBorderMicrostep` wrote only the right-edge mirror (101, 1). -/
theorem wraparound_corner_stale :
    (1, 101) ∈ Boundaries.mirrorCells 1 1 ∧
      Boundaries.commitFlip Boundaries.wraparoundRule Boundaries.onesLattice 1 1 1 1 = -1 ∧
      Boundaries.commitFlip Boundaries.wraparoundRule Boundaries.onesLattice 1 1 1 101 = 1 := by
  refine ⟨by decide, by decide, by decide⟩

/-- C2 amended: under the wraparound rule, after the committed flip of a
NON-corner interior edge cell, every halo cell that mirrors that cell
(there is exactly one) holds the new interior value in the state the
next microstep reads; at an interior corner cell (which has two mirrors)
only the left/right-edge mirror is written by the `else if` chain, and
the halo cell mirroring the cell across the top/bottom keeps its
previous value. -/
theorem wraparound_edge_mirror (L : Lattice) (x y : ℕ)
    (hx1 : Boundaries.activeLeft ≤ x) (hx2 : x ≤ Boundaries.activeRight)
    (hy1 : Boundaries.activeTop ≤ y) (hy2 : y ≤ Boundaries.activeBottom) :
    (x = Boundaries.activeLeft ∨ x = Boundaries.activeRight ∨
        y = Boundaries.activeTop ∨ y = Boundaries.activeBottom) →
    (¬((x = Boundaries.activeLeft ∨ x = Boundaries.activeRight) ∧
        (y = Boundaries.activeTop ∨ y = Boundaries.activeBottom)) →
      ∀ m ∈ Boundaries.mirrorCells x y,
        Boundaries.commitFlip Boundaries.wraparoundRule L x y m.1 m.2 =
          Boundaries.commitFlip Boundaries.wraparoundRule L x y x y) ∧
    ((x = Boundaries.activeLeft ∨ x = Boundaries.activeRight) →
      (y = Boundaries.activeTop ∨ y = Boundaries.activeBottom) →
      (x = Boundaries.activeLeft →
        Boundaries.commitFlip Boundaries.wraparoundRule L x y Boundaries.gridRight y =
          Boundaries.commitFlip Boundaries.wraparoundRule L x y x y) ∧
      (x = Boundaries.activeRight →
        Boundaries.commitFlip Boundaries.wraparoundRule L x y Boundaries.gridLeft y =
          Boundaries.commitFlip Boundaries.wraparoundRule L x y x y) ∧
      (y = Boundaries.activeTop →
        Boundaries.commitFlip Boundaries.wraparoundRule L x y x Boundaries.gridBottom =
          L x Boundaries.gridBottom) ∧
      (y = Boundaries.activeBottom →
        Boundaries.commitFlip Boundaries.wraparoundRule L x y x Boundaries.gridTop =
          L x Boundaries.gridTop)) := by
  intro hedge
  simp only [Boundaries.activeLeft, Boundaries.activeRight, Boundaries.activeTop,
    Boundaries.activeBottom, Boundaries.gridLeft, Boundaries.gridRight,
    Boundaries.gridTop, Boundaries.gridBottom] at *
  constructor
  · intro hnc m hm
    have hcase : (x = 1 ∧ y ≠ 1 ∧ y ≠ 100) ∨ (x = 100 ∧ y ≠ 1 ∧ y ≠ 100) ∨
        (y = 1 ∧ x ≠ 1 ∧ x ≠ 100) ∨ (y = 100 ∧ x ≠ 1 ∧ x ≠ 100) := by
      rcases hedge with h | h | h | h <;> [left; right; skip; skip] <;> try tauto
    rcases hcase with ⟨hx, hyt, hyb⟩ | ⟨hx, hyt, hyb⟩ | ⟨hy, hxl, hxr⟩ | ⟨hy, hxl, hxr⟩
    · subst hx
      simp only [Boundaries.mirrorCells, Boundaries.activeLeft, Boundaries.activeRight,
        Boundaries.activeTop, Boundaries.activeBottom, Boundaries.gridRight, Boundaries.gridTop,
        Boundaries.gridBottom, Boundaries.gridLeft, if_neg hyb, if_neg hyt,
        if_pos rfl] at hm
      have hx100 : (1 : ℕ) ≠ 100 := by decide
      simp only [if_neg hx100, if_true, List.nil_append, List.append_nil,
        List.mem_singleton] at hm
      subst hm
      simp [Boundaries.commitFlip, Boundaries.updateBorderMicrostep, Boundaries.wraparoundRule,
        Boundaries.activeLeft, Boundaries.activeRight, Boundaries.activeTop,
        Boundaries.activeBottom, Boundaries.gridRight, setL]
    · subst hx
      simp only [Boundaries.mirrorCells, Boundaries.activeLeft, Boundaries.activeRight,
        Boundaries.activeTop, Boundaries.activeBottom, Boundaries.gridRight, Boundaries.gridTop,
        Boundaries.gridBottom, Boundaries.gridLeft, if_neg hyb, if_neg hyt,
        if_pos rfl] at hm
      have hx100 : (100 : ℕ) ≠ 1 := by decide
      simp only [if_neg hx100, if_true, List.nil_append, List.append_nil,
        List.mem_singleton] at hm
      subst hm
      simp [Boundaries.commitFlip, Boundaries.updateBorderMicrostep, Boundaries.wraparoundRule,
        Boundaries.activeLeft, Boundaries.activeRight, Boundaries.activeTop,
        Boundaries.activeBottom, Boundaries.gridLeft, setL]
    · subst hy
      simp only [Boundaries.mirrorCells, Boundaries.activeLeft, Boundaries.activeRight,
        Boundaries.activeTop, Boundaries.activeBottom, Boundaries.gridRight, Boundaries.gridTop,
        Boundaries.gridBottom, Boundaries.gridLeft, if_neg hxl, if_neg hxr] at hm
      have hy100 : (1 : ℕ) ≠ 100 := by decide
      simp only [if_neg hy100, if_pos rfl, if_true, List.nil_append, List.append_nil,
        List.mem_singleton] at hm
      subst hm
      simp [Boundaries.commitFlip, Boundaries.updateBorderMicrostep, Boundaries.wraparoundRule,
        Boundaries.activeLeft, Boundaries.activeRight, Boundaries.activeTop,
        Boundaries.activeBottom, Boundaries.gridBottom, setL, hxl, hxr]
    · subst hy
      simp only [Boundaries.mirrorCells, Boundaries.activeLeft, Boundaries.activeRight,
        Boundaries.activeTop, Boundaries.activeBottom, Boundaries.gridRight, Boundaries.gridTop,
        Boundaries.gridBottom, Boundaries.gridLeft, if_neg hxl, if_neg hxr] at hm
      have hy100 : (100 : ℕ) ≠ 1 := by decide
      simp only [if_neg hy100, if_pos rfl, if_true, List.nil_append, List.append_nil,
        List.mem_singleton] at hm
      subst hm
      simp [Boundaries.commitFlip, Boundaries.updateBorderMicrostep, Boundaries.wraparoundRule,
        Boundaries.activeLeft, Boundaries.activeRight, Boundaries.activeTop,
        Boundaries.activeBottom, Boundaries.gridTop, setL, hxl, hxr]
  · intro hxc hyc
    refine ⟨?_, ?_, ?_, ?_⟩
    · intro hx
      subst hx
      simp [Boundaries.commitFlip, Boundaries.updateBorderMicrostep, Boundaries.wraparoundRule,
        Boundaries.activeLeft, Boundaries.activeRight, Boundaries.activeTop,
        Boundaries.activeBottom, Boundaries.gridRight, setL]
    · intro hx
      subst hx
      simp [Boundaries.commitFlip, Boundaries.updateBorderMicrostep, Boundaries.wraparoundRule,
        Boundaries.activeLeft, Boundaries.activeRight, Boundaries.activeTop,
        Boundaries.activeBottom, Boundaries.gridLeft, setL]
    · intro hy
      rcases hxc with hx | hx <;> subst hx <;> subst hy <;>
        simp [Boundaries.commitFlip, Boundaries.updateBorderMicrostep, Boundaries.wraparoundRule,
          Boundaries.activeLeft, Boundaries.activeRight, Boundaries.activeTop,
          Boundaries.activeBottom, Boundaries.gridBottom, setL]
    · intro hy
      rcases hxc with hx | hx <;> subst hx <;> subst hy <;>
        simp [Boundaries.commitFlip, Boundaries.updateBorderMicrostep, Boundaries.wraparoundRule,
          Boundaries.activeLeft, Boundaries.activeRight, Boundaries.activeTop,
          Boundaries.activeBottom, Boundaries.gridTop, setL]

/-- Witness for C2 (amended) at the non-corner left-edge cell (1, 7) of
the all-up lattice, whose unique mirror is the halo cell (101, 7). -/
theorem wraparound_edge_mirror_witness :
    Boundaries.commitFlip Boundaries.wraparoundRule Boundaries.onesLattice 1 7 101 7 =
      Boundaries.commitFlip Boundaries.wraparoundRule Boundaries.onesLattice 1 7 1 7 :=
  ((wraparound_edge_mirror Boundaries.onesLattice 1 7 (by decide) (by decide) (by decide)
      (by decide) (by decide)).1 (by decide)) (101, 7) (by decide)

/-! ## C3: the boustrophedon generator in closed form -/

/-- One-step unfolding of the serpentine loop. -/
theorem bousAux_succ (n f x y : ℕ) :
    boustrophedonAux n (f + 1) x y =
      if y < n then
        (x, y) ::
          (if y % 2 = 0 then
            (if x < n - 1 then boustrophedonAux n f (x + 1) y
             else boustrophedonAux n f x (y + 1))
           else
            (if 0 < x then boustrophedonAux n f (x - 1) y
             else boustrophedonAux n f x (y + 1)))
      else [] := rfl

/-- Consuming the rest of an even row: from column `x` with `x + d = n`,
the generator emits `(x, y), ..., (n-1, y)` and continues at
`(n-1, y+1)`. -/
theorem bous_even_row (n y c : ℕ) (hy : y < n) (he : y % 2 = 0) :
    ∀ d x, x + d = n → 1 ≤ d →
      boustrophedonAux n (c + d) x y =
        ((List.range' x d).map fun a => (a, y)) ++
          boustrophedonAux n c (n - 1) (y + 1) := by
  intro d
  induction d with
  | zero => intro x _ h1; exact absurd h1 (by omega)
  | succ e ih =>
    intro x hx _
    rcases Nat.eq_zero_or_pos e with he0 | hepos
    · subst he0
      have hx1 : x = n - 1 := by omega
      subst hx1
      rw [bousAux_succ, if_pos hy, if_pos he,
        if_neg (show ¬(n - 1 < n - 1) by omega)]
      simp [List.range'_one]
    · have hxlt : x < n - 1 := by omega
      have hshape : c + (e + 1) = (c + e) + 1 := rfl
      rw [hshape, bousAux_succ, if_pos hy, if_pos he, if_pos hxlt,
        ih (x + 1) (by omega) hepos, List.range'_succ]
      simp

/-- Consuming the rest of an odd row: from column `x`, the generator
emits `(x, y), ..., (0, y)` and continues at `(0, y+1)`. -/
theorem bous_odd_row (n y c : ℕ) (hy : y < n) (ho : y % 2 = 1) :
    ∀ x, boustrophedonAux n (c + (x + 1)) x y =
      ((List.range (x + 1)).reverse.map fun a => (a, y)) ++
        boustrophedonAux n c 0 (y + 1) := by
  intro x
  induction x with
  | zero =>
    rw [bousAux_succ, if_pos hy, if_neg (show ¬y % 2 = 0 by omega),
      if_neg (show ¬(0 : ℕ) < 0 by omega)]
    have h0 : List.range 1 = [0] := by decide
    have h1 : ((List.range 1).reverse.map fun a => (a, y)) = [(0, y)] := by
      rw [h0]
      rfl
    rw [h1, List.singleton_append]
  | succ d ih =>
    have hshape : c + (d + 1 + 1) = (c + (d + 1)) + 1 := rfl
    rw [hshape, bousAux_succ, if_pos hy, if_neg (show ¬y % 2 = 0 by omega),
      if_pos (show (0 : ℕ) < d + 1 by omega)]
    have hsub : d + 1 - 1 = d := rfl
    rw [hsub, ih]
    have hsplit : ((List.range (d + 1 + 1)).reverse.map fun a => (a, y)) =
        (d + 1, y) :: ((List.range (d + 1)).reverse.map fun a => (a, y)) := by
      rw [List.range_succ, List.reverse_append]
      simp
    rw [hsplit, List.cons_append]

/-- The whole serpentine sweep from row `y` at its entry column, with
fuel `k * n` for the remaining `k` rows. -/
theorem bous_rows (n : ℕ) :
    ∀ k y, y + k = n →
      boustrophedonAux n (k * n) (bousStartX n y) y =
        (List.range' y k).flatMap (bousRow n) := by
  intro k
  induction k with
  | zero =>
    intro y _
    simp [boustrophedonAux]
  | succ e ih =>
    intro y hy
    have hyn : y < n := by omega
    have hfuel : (e + 1) * n = e * n + n := by ring
    rw [hfuel]
    rcases Nat.mod_two_eq_zero_or_one y with hpar | hpar
    · have hsx : bousStartX n y = 0 := by simp [bousStartX, hpar]
      rw [hsx, bous_even_row n y (e * n) hyn hpar n 0 (by omega) (by omega)]
      have h1 : (y + 1) % 2 = 1 := by omega
      have hnext : bousStartX n (y + 1) = n - 1 := by simp [bousStartX, h1]
      rw [← hnext, ih (y + 1) (by omega), List.range'_succ, List.flatMap_cons]
      congr 1
      simp [bousRow, hpar, List.range_eq_range']
    · have hsx : bousStartX n y = n - 1 := by simp [bousStartX, hpar]
      have hone : n - 1 + 1 = n := by omega
      have hrow := bous_odd_row n y (e * n) hyn hpar (n - 1)
      rw [hone] at hrow
      rw [hsx, hrow]
      have h1 : (y + 1) % 2 = 0 := by omega
      have hnext : bousStartX n (y + 1) = 0 := by simp [bousStartX, h1]
      rw [← hnext, ih (y + 1) (by omega), List.range'_succ, List.flatMap_cons]
      congr 1
      simp [bousRow, hpar]

/-- `boustrophedonCoords` equals its closed form, for every grid side. -/
theorem boustrophedon_eq_canon (n : ℕ) : boustrophedonCoords n = bousCanon n := by
  have h := bous_rows n n 0 (by omega)
  have hsx : bousStartX n 0 = 0 := by simp [bousStartX]
  rw [hsx] at h
  unfold boustrophedonCoords bousCanon
  rw [h, List.range_eq_range']

theorem length_bousRow (n y : ℕ) : (bousRow n y).length = n := by
  unfold bousRow
  split <;> simp

theorem mem_bousRow {n y a b : ℕ} : (a, b) ∈ bousRow n y ↔ a < n ∧ b = y := by
  unfold bousRow
  split <;>
    simp only [List.mem_map, List.mem_reverse, List.mem_range, Prod.mk.injEq] <;>
    constructor <;>
    (first
      | (rintro ⟨v, hv, rfl, rfl⟩; exact ⟨hv, rfl⟩)
      | (rintro ⟨h1, rfl⟩; exact ⟨a, h1, rfl, rfl⟩))

theorem length_bousCanon (n : ℕ) : (bousCanon n).length = n * n := by
  simp only [bousCanon, List.length_flatMap, Function.comp_def]
  rw [List.map_congr_left fun a _ => length_bousRow n a, List.map_const']
  simp [List.sum_replicate, smul_eq_mul, mul_comm]

theorem mem_bousCanon {n a b : ℕ} : (a, b) ∈ bousCanon n ↔ a < n ∧ b < n := by
  unfold bousCanon
  simp only [List.mem_flatMap, List.mem_range]
  constructor
  · rintro ⟨y, hy, hm⟩
    rcases mem_bousRow.1 hm with ⟨h1, rfl⟩
    exact ⟨h1, hy⟩
  · rintro ⟨h1, h2⟩
    exact ⟨b, h2, mem_bousRow.2 ⟨h1, rfl⟩⟩

/-! ## C3: randomPermutation produces a permutation -/

theorem swapFn_eq_comp (p : ℕ → ℕ) (i j : ℕ) :
    swapFn p i j = fun k => p (transposeFn i j k) := by
  funext k
  unfold swapFn transposeFn
  split_ifs <;> rfl

theorem transposeFn_lt {n i j : ℕ} (hi : i < n) (hj : j < n) {k : ℕ} (hk : k < n) :
    transposeFn i j k < n := by
  unfold transposeFn
  split_ifs <;> omega

theorem transposeFn_inj (i j : ℕ) {a b : ℕ} (h : transposeFn i j a = transposeFn i j b) :
    a = b := by
  unfold transposeFn at h
  split_ifs at h <;> omega

theorem goodOn_swapFn {p : ℕ → ℕ} {n i j : ℕ} (hp : GoodOn p n) (hi : i < n)
    (hj : j < n) : GoodOn (swapFn p i j) n := by
  rw [swapFn_eq_comp]
  constructor
  · intro k hk
    exact hp.1 _ (transposeFn_lt hi hj hk)
  · intro a ha b hb hab
    exact transposeFn_inj i j
      (hp.2 _ (transposeFn_lt hi hj ha) _ (transposeFn_lt hi hj hb) hab)

theorem goodOn_foldl {n : ℕ} {js : ℕ → ℕ} (hjs : ∀ k, js k < n) :
    ∀ (l : List ℕ) (p : ℕ → ℕ), GoodOn p n → (∀ i ∈ l, i < n) →
      GoodOn (l.foldl (fun q i => swapFn q i (js i)) p) n := by
  intro l
  induction l with
  | nil => intro p hp _; exact hp
  | cons a t ih =>
    intro p hp hl
    exact ih _ (goodOn_swapFn hp (hl a (by simp)) (hjs a))
      fun i hi => hl i (by simp [hi])

theorem goodOn_randomPermutation {n : ℕ} {js : ℕ → ℕ} (hjs : ∀ k, js k < n) :
    GoodOn (randomPermutation n js) n := by
  unfold randomPermutation
  refine goodOn_foldl hjs _ id ⟨fun k hk => hk, fun a _ b _ h => h⟩ ?_
  intro i hi
  rw [List.mem_reverse] at hi
  have := List.mem_range'_1.1 hi
  omega

theorem goodOn_coverage {p : ℕ → ℕ} {n : ℕ} (hp : GoodOn p n) :
    ∀ m < n, ∃ k, k < n ∧ p k = m := by
  intro m hm
  have hinj : ∀ a ∈ Finset.range n, ∀ b ∈ Finset.range n, p a = p b → a = b := by
    intro a ha b hb hab
    exact hp.2 _ (Finset.mem_range.1 ha) _ (Finset.mem_range.1 hb) hab
  have himg : (Finset.range n).image p = Finset.range n := by
    apply Finset.eq_of_subset_of_card_le
    · intro v hv
      rcases Finset.mem_image.1 hv with ⟨k, hk, rfl⟩
      exact Finset.mem_range.2 (hp.1 _ (Finset.mem_range.1 hk))
    · rw [Finset.card_image_of_injOn hinj]
  have : m ∈ (Finset.range n).image p := by
    rw [himg]
    exact Finset.mem_range.2 hm
  rcases Finset.mem_image.1 this with ⟨k, hk, hkm⟩
  exact ⟨k, Finset.mem_range.1 hk, hkm⟩

theorem permArray_mem {n : ℕ} {js : ℕ → ℕ} (hjs : ∀ k, js k < n) :
    ∀ m < n, m ∈ permArray n js := by
  intro m hm
  rcases goodOn_coverage (goodOn_randomPermutation hjs) m hm with ⟨k, hk, hkm⟩
  exact List.mem_map.2 ⟨k, List.mem_range.2 hk, hkm⟩

theorem permutedGen_covers {js : ℕ → ℕ} (hjs : ∀ k, js k < 400) :
    (permutedGen (permArray 400 js)).length = 400 ∧
      (permutedGen (permArray 400 js)).Nodup ∧
      ∀ x < 20, ∀ y < 20, (x, y) ∈ permutedGen (permArray 400 js) := by
  have hlen : (permutedGen (permArray 400 js)).length = 400 := by
    simp [permutedGen, permArray]
  have hmem : ∀ x < 20, ∀ y < 20, (x, y) ∈ permutedGen (permArray 400 js) := by
    intro x hx y hy
    have hr : 20 * x + y < 400 := by omega
    have h1 : (20 * x + y) / 20 = x := by omega
    have h2 : (20 * x + y) % 20 = y := by omega
    exact List.mem_map.2 ⟨20 * x + y, permArray_mem hjs _ hr, by rw [h1, h2]⟩
  exact ⟨hlen, nodup_of_cover (hlen.trans (by norm_num)) hmem, hmem⟩

/-! ## C3: coverage lemmas for the remaining generators -/

theorem mem_typewriterGen {n a b : ℕ} : (a, b) ∈ typewriterGen n ↔ a < n ∧ b < n := by
  unfold typewriterGen
  simp only [List.mem_flatMap, List.mem_map, List.mem_range, Prod.mk.injEq]
  constructor
  · rintro ⟨y, hy, x, hx, rfl, rfl⟩
    exact ⟨hx, hy⟩
  · rintro ⟨h1, h2⟩
    exact ⟨b, h2, a, h1, rfl, rfl⟩

theorem mem_stride2_of {s n x : ℕ} (hx : x < n) (hs : s ≤ x) (hpar : x % 2 = s % 2) :
    x ∈ stride2 s n := by
  unfold stride2
  exact List.mem_range'.2 ⟨(x - s) / 2, by omega, by omega⟩

theorem checkerboard_covers {n x y : ℕ} (hx : x < n) (hy : y < n) :
    (x, y) ∈ checkerboardGen n := by
  unfold checkerboardGen
  rcases eq_or_ne (x % 2) (y % 2) with hpar | hpar
  · exact List.mem_append.2 (Or.inl (List.mem_flatMap.2
      ⟨y, List.mem_range.2 hy,
        List.mem_map.2 ⟨x, mem_stride2_of hx (by omega) (by omega), rfl⟩⟩))
  · exact List.mem_append.2 (Or.inr (List.mem_flatMap.2
      ⟨y, List.mem_range.2 hy,
        List.mem_map.2 ⟨x, mem_stride2_of hx (by omega) (by omega), rfl⟩⟩))

theorem diagCanon_covers {n x y : ℕ} (hx : x < n) (hy : y < n) :
    (x, y) ∈ diagCanon n := by
  unfold diagCanon
  refine List.mem_flatMap.2 ⟨x + y, List.mem_range.2 (by omega), ?_⟩
  unfold diagSegment
  exact List.mem_map.2 ⟨x, List.mem_range'.2 ⟨x - (x + y - (n - 1)), by omega, by omega⟩,
    by rw [show x + y - x = y from by omega]⟩

/-! ## C3: the coverage theorem -/

set_option maxRecDepth 100000 in
set_option maxHeartbeats 2000000 in
/-- C3: per sweep, the typewriter, checkerboard and diagonal sequences
(gridSize 20), the boustrophedon sequence (gridSize 100) and the
permuted/re-permuted sequences (any draw stream for
`randomPermutation(400)`) each emit exactly N coordinates with no
duplicates, covering every site; the random sequence always emits N
coordinates but carries no coverage guarantee — with all draws 0 it
visits (0, 0) four hundred times. -/
theorem visitation_coverage :
    ((typewriterGen 20).length = 400 ∧ (typewriterGen 20).Nodup ∧
        ∀ x < 20, ∀ y < 20, (x, y) ∈ typewriterGen 20) ∧
      ((checkerboardGen 20).length = 400 ∧ (checkerboardGen 20).Nodup ∧
        ∀ x < 20, ∀ y < 20, (x, y) ∈ checkerboardGen 20) ∧
      ((diagonalGen 20).length = 400 ∧ (diagonalGen 20).Nodup ∧
        ∀ x < 20, ∀ y < 20, (x, y) ∈ diagonalGen 20) ∧
      ((boustrophedonCoords 100).length = 10000 ∧ (boustrophedonCoords 100).Nodup ∧
        ∀ x < 100, ∀ y < 100, (x, y) ∈ boustrophedonCoords 100) ∧
      (∀ js : ℕ → ℕ, (∀ k, js k < 400) →
        (permutedGen (permArray 400 js)).length = 400 ∧
          (permutedGen (permArray 400 js)).Nodup ∧
          (∀ x < 20, ∀ y < 20, (x, y) ∈ permutedGen (permArray 400 js)) ∧
          (re_permutedGen js).length = 400 ∧ (re_permutedGen js).Nodup ∧
          ∀ x < 20, ∀ y < 20, (x, y) ∈ re_permutedGen js) ∧
      (∀ xs ys : ℕ → ℕ, (randomGen 20 xs ys).length = 400) ∧
      (randomGen 20 (fun _ => 0) fun _ => 0).length = 400 ∧
      ¬(randomGen 20 (fun _ => 0) fun _ => 0).Nodup := by
  have htw : ∀ x < 20, ∀ y < 20, (x, y) ∈ typewriterGen 20 :=
    fun _ hx _ hy => mem_typewriterGen.2 ⟨hx, hy⟩
  have hcb : ∀ x < 20, ∀ y < 20, (x, y) ∈ checkerboardGen 20 :=
    fun _ hx _ hy => checkerboard_covers hx hy
  have hdq : diagonalGen 20 = diagCanon 20 := by decide
  have hdg : ∀ x < 20, ∀ y < 20, (x, y) ∈ diagonalGen 20 := by
    rw [hdq]
    exact fun _ hx _ hy => diagCanon_covers hx hy
  refine ⟨⟨by decide, nodup_of_cover (n := 20) (by decide) htw, htw⟩,
    ⟨by decide, nodup_of_cover (n := 20) (by decide) hcb, hcb⟩,
    ⟨by decide, nodup_of_cover (n := 20) (by decide) hdg, hdg⟩,
    ?_, ?_, ?_, by decide, by decide⟩
  · rw [boustrophedon_eq_canon]
    refine ⟨by rw [length_bousCanon], ?_, ?_⟩
    · exact nodup_of_cover (n := 100) (length_bousCanon 100)
        fun x hx y hy => mem_bousCanon.2 ⟨hx, hy⟩
    · intro x hx y hy
      exact mem_bousCanon.2 ⟨hx, hy⟩
  · intro js hjs
    have h := permutedGen_covers hjs
    exact ⟨h.1, h.2.1, h.2.2, h.1, h.2.1, h.2.2⟩
  · intro xs ys
    simp [randomGen]

/-- Witness for C3 with the all-zero draw stream for
`randomPermutation`. -/
theorem visitation_coverage_witness :
    (permutedGen (permArray 400 fun _ => 0)).length = 400 :=
  (visitation_coverage.2.2.2.2.1 (fun _ => 0) fun _ => by norm_num).1

/-! ## C4: simultaneous (synchronous) mode -/

theorem setL_ne {L : Lattice} {ax ay x y : ℕ} (h : ¬(x = ax ∧ y = ay)) (v : ℤ) :
    setL L ax ay v x y = L x y := by
  unfold setL
  rw [if_neg h]

theorem simMicrostep_lattice (temperature : ℝ) (u : ℕ → ℕ → ℝ)
    (st : Lattice × Lattice) (xy : ℕ × ℕ) :
    (simMicrostep temperature u st xy).2 = st.2 := by
  simp only [simMicrostep]
  split <;> rfl

/-- The lattice component is never written during the decision loop of a
simultaneous sweep, whatever the coordinate list. -/
theorem simSweep_lattice_invariant (temperature : ℝ) (u : ℕ → ℕ → ℝ) :
    ∀ (coords : List (ℕ × ℕ)) (st : Lattice × Lattice),
      (coords.foldl (simMicrostep temperature u) st).2 = st.2 := by
  intro coords
  induction coords with
  | nil => intro st; rfl
  | cons a t ih =>
    intro st
    rw [List.foldl_cons, ih, simMicrostep_lattice]

/-- Coordinates other than `(x, y)` never write the shadow cell
`(x, y)`. -/
theorem simSweep_shadow_untouched (temperature : ℝ) (u : ℕ → ℕ → ℝ) {x y : ℕ} :
    ∀ (coords : List (ℕ × ℕ)) (st : Lattice × Lattice), (x, y) ∉ coords →
      (coords.foldl (simMicrostep temperature u) st).1 x y = st.1 x y := by
  intro coords
  induction coords with
  | nil => intro st _; rfl
  | cons a t ih =>
    intro st ha
    have hne : ¬(x = a.1 ∧ y = a.2) := by
      rintro ⟨h1, h2⟩
      exact ha (List.mem_cons.2 (Or.inl (by cases a; simp [h1, h2])))
    rw [List.foldl_cons, ih _ fun hx => ha (List.mem_cons.2 (Or.inr hx))]
    simp only [simMicrostep]
    split
    · dsimp only
      rw [setL_ne hne, setL_ne hne]
    · dsimp only
      rw [setL_ne hne]

/-- After a simultaneous sweep over duplicate-free coordinates
containing `(x, y)`, the shadow cell holds the flip decision computed
from the lattice component of the initial state. -/
theorem simSweep_shadow (temperature : ℝ) (u : ℕ → ℕ → ℝ) {x y : ℕ} :
    ∀ coords : List (ℕ × ℕ), coords.Nodup → (x, y) ∈ coords →
      ∀ st : Lattice × Lattice,
        (coords.foldl (simMicrostep temperature u) st).1 x y =
          (if MRule (calcDeltaE 100 st.2 x y) temperature (u x y) then -(st.2 x y)
           else st.2 x y) := by
  intro coords
  induction coords with
  | nil => intro _ h; cases h
  | cons a t ih =>
    intro hnd hm st
    rw [List.foldl_cons]
    rcases List.mem_cons.1 hm with heq | hmt
    · have hnotin : (x, y) ∉ t := heq ▸ (List.nodup_cons.1 hnd).1
      rw [simSweep_shadow_untouched _ _ _ _ hnotin, ← heq]
      simp only [simMicrostep]
      split <;> simp [setL]
    · rw [ih (List.nodup_cons.1 hnd).2 hmt, simMicrostep_lattice]

theorem sweepOrderXMajor_eq (n : ℕ) :
    sweepOrderXMajor n = (List.range n) ×ˢ (List.range n) := rfl

/-- C4: during a simultaneous sweep of the visitation program, the
lattice is never written while decisions are made — every flip decision
is computed from the pre-sweep lattice `L` — and only the final
copy-back phase changes the lattice, whose cells then hold exactly the
pointwise decisions taken on `L`. -/
theorem simultaneous_reads_presweep (L S : Lattice) (temperature : ℝ)
    (u : ℕ → ℕ → ℝ) :
    (∀ coords : List (ℕ × ℕ),
        (coords.foldl (simMicrostep temperature u) (S, L)).2 = L) ∧
      ∀ x y : ℕ, x < 100 → y < 100 →
        runMetro_simultaneous L S temperature u x y =
          if MRule (calcDeltaE 100 L x y) temperature (u x y) then -(L x y)
          else L x y := by
  constructor
  · intro coords
    exact simSweep_lattice_invariant _ _ coords (S, L)
  · intro x y hx hy
    have hnd : (sweepOrderXMajor 100).Nodup := by
      rw [sweepOrderXMajor_eq]
      exact (List.nodup_range _).product (List.nodup_range _)
    have hmem : (x, y) ∈ sweepOrderXMajor 100 := by
      rw [sweepOrderXMajor_eq]
      exact List.mem_product.2 ⟨List.mem_range.2 hx, List.mem_range.2 hy⟩
    have h := simSweep_shadow temperature u (sweepOrderXMajor 100) hnd hmem (S, L)
    simp only [runMetro_simultaneous]
    rw [if_pos ⟨hx, hy⟩]
    exact h

/-- Witness for C4 at site (0, 0) of the all-down lattice. -/
theorem simultaneous_reads_presweep_witness :
    runMetro_simultaneous downLattice downLattice 1 (fun _ _ => 0) 0 0 =
      if MRule (calcDeltaE 100 downLattice 0 0) 1 (0 : ℝ) then -(downLattice 0 0)
      else downLattice 0 0 :=
  (simultaneous_reads_presweep downLattice downLattice 1 fun _ _ => 0).2 0 0
    (by norm_num) (by norm_num)

/-! ## C7: unknown mode selectors -/

/-- C7 counterexample: an unknown initialization pattern in
metro_v_glauber.js is NOT fatal — `init` logs a console message, leaves
the lattice untouched (no fallback), and still executes the trailing
`drawLattice()`; and an unknown acceptance-mode selector in the combined
program's `updateSpin` is a silent no-op: no message, no error, lattice
unchanged. -/
theorem unknown_selector_counterexample :
    (MetroGlauber.init bogusSelector (fun _ _ => true) downLattice).drew = true ∧
      (MetroGlauber.init bogusSelector (fun _ _ => true) downLattice).lattice =
        downLattice ∧
      (MetroGlauber.init bogusSelector (fun _ _ => true) downLattice).consoleLog =
        ["Unknown initState frobnicate"] ∧
      Combined.updateSpin bogusSelector downLattice 0 0 1 0 0 = downLattice := by
  refine ⟨rfl, rfl, by decide, ?_⟩
  simp [Combined.updateSpin, bogusSelector]

/-- C7 amended: an unknown initialization pattern is surfaced only as a
console log message, applies no fallback, leaves the lattice untouched,
and init proceeds to redraw (non-fatal); an unknown acceptance-mode
selector in the combined program's `updateSpin` silently leaves the
lattice unchanged. -/
theorem unknown_selector_behavior (pattern : String) (coins : ℕ → ℕ → Bool)
    (L : Lattice) (x y : ℕ) (temperature u c : ℝ)
    (hp1 : pattern ≠ "scrambled") (hp2 : pattern ≠ "plus") (hp3 : pattern ≠ "minus")
    (ha1 : pattern ≠ "M_rule") (ha2 : pattern ≠ "G_rule")
    (ha3 : pattern ≠ "M_star_rule") :
    MetroGlauber.init pattern coins L =
        ⟨L, ["Unknown initState " ++ pattern], true⟩ ∧
      Combined.updateSpin pattern L x y temperature u c = L := by
  constructor
  · unfold MetroGlauber.init
    rw [if_neg hp1, if_neg hp2, if_neg hp3]
  · simp only [Combined.updateSpin]
    rw [if_neg ha1, if_neg ha2, if_neg ha3]

/-- Witness for C7 (amended) with the selector string "frobnicate". -/
theorem unknown_selector_behavior_witness :
    MetroGlauber.init bogusSelector (fun _ _ => true) downLattice =
        ⟨downLattice, ["Unknown initState " ++ bogusSelector], true⟩ ∧
      Combined.updateSpin bogusSelector downLattice 0 0 1 0 0 = downLattice :=
  unknown_selector_behavior bogusSelector (fun _ _ => true) downLattice 0 0 1 0 0
    (by decide) (by decide) (by decide) (by decide) (by decide) (by decide)

/-! ## C8: standard deviation with divisor steps - 1 -/

/-- C8: the deviate sum is divided by `steps - 1` with no guard. With a
single recorded sweep (`steps = 1`) the single deviate is `0`, so the
radicand is the JS expression `0 / 0 = NaN` (`none` in the model) and
NaN flows into the reported `M_sdev`/`R_sdev`; with `steps = 3` the
divisor is `2`, the sample-variance convention the claim describes. -/
theorem sdev_steps_one_nan :
    (∀ q : ℚ, (([q].map fun x => MetroGlauber.square (x - [q].sum / ((1 : ℕ) : ℚ))).sum = 0 ∧
        MetroGlauber.sdevRadicand [q] 1 = none)) ∧
      MetroGlauber.sdevRadicand [0, 1, 2] 3 = some 1 := by
  constructor
  · intro q
    constructor
    · simp [MetroGlauber.square]
    · simp [MetroGlauber.sdevRadicand, MetroGlauber.jsDiv, MetroGlauber.square]
  · norm_num [MetroGlauber.sdevRadicand, MetroGlauber.jsDiv, MetroGlauber.square,
      List.sum_cons]

/-! ## C9: temperatureStep never delivers its output -/

theorem writeShortList_nonempty (tag missing : String) (short : List (Option ℚ))
    (h : short ≠ []) :
    MetroGlauber.writeShortList tag missing short =
      Except.error (MetroGlauber.JsError.referenceError missing) := by
  unfold MetroGlauber.writeShortList
  cases hl : short.getLast? with
  | none => exact absurd (List.getLast?_eq_none_iff.1 hl) h
  | some v => rfl

theorem decimate_ne_nil {arr : List ℚ} {glom : ℕ} (hglom : 1 ≤ glom)
    (harr : arr ≠ []) : MetroGlauber.decimate_array arr glom ≠ [] := by
  unfold MetroGlauber.decimate_array
  rw [ne_eq, List.map_eq_nil_iff, List.range_eq_nil]
  have h1 : 1 ≤ arr.length := List.length_pos.2 harr
  have h2 : 1 ≤ (arr.length + glom - 1) / glom :=
    (Nat.one_le_div_iff (by omega)).2 (by omega)
  omega

/-- C9 counterexample: with zero recorded sweeps (`T1_steps = T2_steps
= 0`) the decimated list is empty, line 549 indexes `R_short[-1]`
(undefined) and `.toFixed` throws a TypeError — not the ReferenceError
the claim asserts for every argument combination. -/
theorem temperatureStep_zero_steps_typeerror :
    MetroGlauber.temperatureStep (fun _ => (0, 0)) 0 0 1 1 =
        Except.error MetroGlauber.JsError.typeError ∧
      MetroGlauber.JsError.typeError ≠
        MetroGlauber.JsError.referenceError MetroGlauber.identR ∧
      MetroGlauber.JsError.typeError ≠
        MetroGlauber.JsError.referenceError MetroGlauber.identM := by
  refine ⟨rfl, by decide, by decide⟩

/-- C9 amended: whenever at least one sweep is recorded and `glom ≥ 1`
(with `glom = 0` the decimation loop never terminates), every call to
`temperatureStep` throws a ReferenceError while writing its `R` output —
the assignment `outputDiv.innerHTML = R-str` reads the undeclared
identifier `R` — so the routine never returns its decimated result
lists. -/
theorem temperatureStep_referenceError (measurements : ℕ → ℚ × ℚ)
    (T1_steps T2_steps glom reps : ℕ) (hsteps : 1 ≤ T1_steps + T2_steps)
    (hglom : 1 ≤ glom) :
    MetroGlauber.temperatureStep measurements T1_steps T2_steps glom reps =
      Except.error (MetroGlauber.JsError.referenceError MetroGlauber.identR) := by
  have harr : ((List.range (T1_steps + T2_steps)).map fun j =>
      (measurements j).1).map (fun x => x / ((reps : ℕ) : ℚ)) ≠ [] := by
    apply List.ne_nil_of_length_pos
    simp [hsteps]
    omega
  simp only [MetroGlauber.temperatureStep]
  rw [writeShortList_nonempty _ _ _ (decimate_ne_nil hglom harr)]
  rfl

/-- Witness for C9 (amended) with one recorded sweep. -/
theorem temperatureStep_referenceError_witness :
    MetroGlauber.temperatureStep (fun _ => (0, 0)) 1 0 1 1 =
      Except.error (MetroGlauber.JsError.referenceError MetroGlauber.identR) :=
  temperatureStep_referenceError (fun _ => (0, 0)) 1 0 1 1 (by norm_num) (by norm_num)

/-! ## C10: harnesses report the mean of |M| -/

/-- C10: every measurement harness accumulates `Math.abs(magnetization())`
per recorded sweep, so every reported per-sweep magnetization mean is a
mean of |M| and is nonnegative whatever the lattice trajectory; in
particular a trajectory pinned to the all-down lattice (signed
magnetization -1) reports `+1` at every sweep index. -/
theorem magnetization_abs_mean (lat : ℕ → ℕ → Lattice)
    (steps T1_steps T2_steps reps : ℕ) :
    (∀ v ∈ MetroGlauber.equilibriumMResults lat steps reps, 0 ≤ v) ∧
      (∀ v ∈ stepResponseHResults lat T1_steps T2_steps reps, 0 ≤ v) ∧
      (1 ≤ reps →
        ∀ v ∈ MetroGlauber.equilibriumMResults (fun _ _ => downLattice) steps reps,
          v = 1) := by
  have hmag : MetroGlauber.magnetization 100 downLattice = -1 := by
    unfold MetroGlauber.magnetization downLattice
    norm_num [Finset.sum_const, Finset.card_range]
  refine ⟨?_, ?_, ?_⟩
  · intro v hv
    rcases List.mem_map.1 hv with ⟨j, _, rfl⟩
    exact div_nonneg (Finset.sum_nonneg fun i _ => abs_nonneg _) (by positivity)
  · intro v hv
    rcases List.mem_map.1 hv with ⟨j, _, rfl⟩
    exact div_nonneg (Finset.sum_nonneg fun i _ => abs_nonneg _) (by positivity)
  · intro hreps v hv
    rcases List.mem_map.1 hv with ⟨j, _, rfl⟩
    have hne : ((reps : ℕ) : ℚ) ≠ 0 := Nat.cast_ne_zero.2 (by omega)
    simp [hmag, Finset.sum_const, Finset.card_range, hne]

/-- Witness for C10 with one repetition of one recorded sweep on the
all-down trajectory: the single reported value is +1. -/
theorem magnetization_abs_mean_witness :
    (∑ i ∈ Finset.range 1, |MetroGlauber.magnetization 100 downLattice|) /
        ((1 : ℕ) : ℚ) = 1 :=
  (magnetization_abs_mean (fun _ _ => downLattice) 1 0 0 1).2.2 le_rfl _
    (by simp [MetroGlauber.equilibriumMResults])

end MCMC

